import Mathlib

/-!
# Verification of the Genomancer digestion engine, ligation checker and cloning planner

Shallow embedding of the Python sources `fragment_calculator.py`,
`ligation_compatibility.py`, `sim.py` (cut-site scanning used by the planner)
and `planner.py`.  DNA strings are modelled as `List Char`; Python `int`
becomes `Int` (or `Nat` where the source value is provably a count);
Python `float` cost arithmetic is modelled by exact rationals `ℚ`
(every constant appearing in the sources is a small decimal, and the claims
under study concern the structure of the computations, not rounding);
Python dicts keyed by position are modelled by association lists, and
Python sets whose iteration order is never observed by `Finset`.
-/

namespace Genomancer

/-- Python `str.upper()` modelled characterwise on the DNA/IUPAC alphabet:
the fifteen lowercase IUPAC letters map to their uppercase forms and every
other character is unchanged. -/
def upChar (c : Char) : Char :=
  if c == 'a' then 'A' else if c == 'c' then 'C'
  else if c == 'g' then 'G' else if c == 't' then 'T'
  else if c == 'r' then 'R' else if c == 'y' then 'Y'
  else if c == 's' then 'S' else if c == 'w' then 'W'
  else if c == 'k' then 'K' else if c == 'm' then 'M'
  else if c == 'b' then 'B' else if c == 'd' then 'D'
  else if c == 'h' then 'H' else if c == 'v' then 'V'
  else if c == 'n' then 'N' else c

/-- `str.upper()` on a whole string (list of characters). -/
def pyUpper (s : List Char) : List Char := s.map upChar

/-- The character table of `revcomp` in ligation_compatibility.py:
`str.maketrans("ACGTacgt", "TGCAtgca")` — plain Watson–Crick complement,
every other character (including degenerate IUPAC letters) is unchanged. -/
def compChar (c : Char) : Char :=
  if c == 'A' then 'T' else if c == 'C' then 'G'
  else if c == 'G' then 'C' else if c == 'T' then 'A'
  else if c == 'a' then 't' else if c == 'c' then 'g'
  else if c == 'g' then 'c' else if c == 't' then 'a'
  else c

/-- `revcomp` from ligation_compatibility.py: translate by `compChar`, then
reverse. -/
def revcomp (s : List Char) : List Char := (s.map compChar).reverse

/-- The character table of `revcomp_iupac` in ligation_compatibility.py:
`str.maketrans("ACGTRYSWKMBDHVNacgtryswkmbdhvn", "TGCAYRSWMKVHDBNtgcayrswmkvhdbn")`. -/
def compIupacChar (c : Char) : Char :=
  if c == 'A' then 'T' else if c == 'C' then 'G'
  else if c == 'G' then 'C' else if c == 'T' then 'A'
  else if c == 'R' then 'Y' else if c == 'Y' then 'R'
  else if c == 'S' then 'S' else if c == 'W' then 'W'
  else if c == 'K' then 'M' else if c == 'M' then 'K'
  else if c == 'B' then 'V' else if c == 'D' then 'H'
  else if c == 'H' then 'D' else if c == 'V' then 'B'
  else if c == 'N' then 'N'
  else if c == 'a' then 't' else if c == 'c' then 'g'
  else if c == 'g' then 'c' else if c == 't' then 'a'
  else if c == 'r' then 'y' else if c == 'y' then 'r'
  else if c == 's' then 's' else if c == 'w' then 'w'
  else if c == 'k' then 'm' else if c == 'm' then 'k'
  else if c == 'b' then 'v' else if c == 'd' then 'h'
  else if c == 'h' then 'd' else if c == 'v' then 'b'
  else if c == 'n' then 'n'
  else c

/-- `revcomp_iupac` from ligation_compatibility.py. -/
def revcompIupac (s : List Char) : List Char := (s.map compIupacChar).reverse

/-- The overhang-type string `"5' overhang"` used throughout the sources
(the apostrophe is written as an escape). -/
def fivePrimeTag : String := "5\x27 overhang"

/-- The overhang-type string `"3' overhang"`. -/
def threePrimeTag : String := "3\x27 overhang"

/-- The overhang-type string `"Blunt"`. -/
def bluntTag : String := "Blunt"

/-! ## Ligation compatibility (ligation_compatibility.py) -/

/-- `EndInfo` from ligation_compatibility.py: a fragment end with ligation
compatibility data.  `overhang_type` keeps the source's string encoding. -/
structure EndInfo where
  enzyme : String
  overhang_type : String
  overhang_len : Nat
  sticky_seq : List Char
  polarity : String
  fragment_id : Int
  position : Int
deriving DecidableEq, Repr

/-- `are_compatible` from ligation_compatibility.py, lines 172–218: the
sequential rule cascade deciding whether two fragment ends can ligate.  The
final complementarity test uses the plain (ACGT-only) `revcomp` and uppercases
both sides, exactly as the source does. -/
def are_compatible (a b : EndInfo) (include_blunt : Bool) (min_overhang : Int) : Bool :=
  if a.overhang_len == 0 && b.overhang_len == 0 then include_blunt
  else if (a.overhang_len == 0) != (b.overhang_len == 0) then false
  else if (a.overhang_len : Int) < min_overhang || (b.overhang_len : Int) < min_overhang then
    false
  else if a.overhang_len != b.overhang_len then false
  else if a.overhang_type != b.overhang_type then false
  else pyUpper a.sticky_seq == pyUpper (revcomp b.sticky_seq)

/-- The compatibility rules exactly as the specification words them, with the
final complementarity test reading "reverse complement" as the IUPAC-aware
complement (`revcomp_iupac`), which agrees with the plain complement on
A/C/G/T and complements degenerate letters as well.  Used to test the
specification's parenthetical "(IUPAC-aware complement when degenerate bases
are in play)" against the source. -/
def are_compatible_claim_iupac (a b : EndInfo) (include_blunt : Bool)
    (min_overhang : Int) : Bool :=
  if a.overhang_len = 0 ∧ b.overhang_len = 0 then include_blunt
  else if Xor' (a.overhang_len = 0) (b.overhang_len = 0) then false
  else if (a.overhang_len : Int) < min_overhang ∨ (b.overhang_len : Int) < min_overhang then
    false
  else if a.overhang_len ≠ b.overhang_len then false
  else if a.overhang_type ≠ b.overhang_type then false
  else decide (pyUpper a.sticky_seq = pyUpper (revcompIupac b.sticky_seq))

/-- The amended compatibility rules: the same cascade, with the final test
using the plain DNA reverse complement in which degenerate IUPAC letters are
left unchanged (not complemented). -/
def are_compatible_amended (a b : EndInfo) (include_blunt : Bool)
    (min_overhang : Int) : Bool :=
  if a.overhang_len = 0 ∧ b.overhang_len = 0 then include_blunt
  else if Xor' (a.overhang_len = 0) (b.overhang_len = 0) then false
  else if (a.overhang_len : Int) < min_overhang ∨ (b.overhang_len : Int) < min_overhang then
    false
  else if a.overhang_len ≠ b.overhang_len then false
  else if a.overhang_type ≠ b.overhang_type then false
  else decide (pyUpper a.sticky_seq = pyUpper (revcomp b.sticky_seq))



/-! ## Overhang/end resolver (fragment_calculator.py) -/

/-- Python slice `s[a:b]` for clamp-free nonnegative bounds. -/
def pySlice (s : List Char) (a b : Nat) : List Char := (s.drop a).take (b - a)

/-- `slice_circular` from fragment_calculator.py, lines 65–91: extract a slice
that may wrap around the origin of a circular sequence.  Python `%` on a
positive modulus is `Int.emod`. -/
def slice_circular (seq : List Char) (start stop : Int) : List Char :=
  let n := seq.length
  if n = 0 then []
  else
    let s := (start % (n : Int)).toNat
    let e := (stop % (n : Int)).toNat
    if s < e then pySlice seq s e
    else if s > e then seq.drop s ++ seq.take e
    else if s = 0 then seq else []

/-- `calculate_overhang_length` from fragment_calculator.py:
`abs(2 * cut_index - site_len)`. -/
def calculate_overhang_length (recognition_site : List Char) (cut_index : Int) : Nat :=
  (2 * cut_index - (recognition_site.length : Int)).natAbs

/-- The record returned by `compute_end_metadata` (a Python dict with fixed
keys in the source). -/
structure EndMeta where
  overhang_len : Nat
  sticky_seq : List Char
  polarity : String
  end_bases : List Char
  overhang_type : String
deriving DecidableEq, Repr

/-- `compute_end_metadata` from fragment_calculator.py, lines 133–244: the
single source of truth for overhang metadata.  For a blunt end (or zero
overhang) everything is empty; otherwise the canonical sticky sequence is
`dna[cut_pos : cut_pos+overhang_len]` for a 5-prime overhang and
`dna[cut_pos-overhang_len : cut_pos]` otherwise (the source's `else` branch
covers every non-blunt, non-5-prime kind), clamped to the sequence for linear
DNA and wrap-sliced for circular DNA. -/
def compute_end_metadata (dna : List Char) (cut_pos : Int) (recognition_site : List Char)
    (cut_index : Int) (overhang_type : String) (is_left_end : Bool)
    (circular : Bool) : EndMeta :=
  let overhang_len := calculate_overhang_length recognition_site cut_index
  let polarity := if is_left_end then "left" else "right"
  if overhang_type = bluntTag ∨ overhang_len = 0 then
    { overhang_len := 0, sticky_seq := [], polarity := polarity, end_bases := [],
      overhang_type := overhang_type }
  else
    let seq_len : Int := dna.length
    let se : Int × Int :=
      if overhang_type = fivePrimeTag then (cut_pos, cut_pos + overhang_len)
      else (cut_pos - overhang_len, cut_pos)
    let sticky_seq :=
      if circular then slice_circular dna se.1 se.2
      else
        let s := max 0 (min se.1 seq_len)
        let e := max 0 (min se.2 seq_len)
        pySlice dna s.toNat e.toNat
    { overhang_len := overhang_len, sticky_seq := sticky_seq, polarity := polarity,
      end_bases := sticky_seq, overhang_type := overhang_type }

/-! ## Fragment computation (fragment_calculator.py) -/

/-- One entry of the per-position cut metadata: the Python dicts
`{enzyme, site, cut_index, overhang_type}`. -/
structure EnzMeta where
  enzyme : String
  site : List Char
  cut_index : Int
  overhang_type : String
deriving DecidableEq, Repr

/-- The source deduplicates enzyme metadata lists by enzyme name, keeping the
first occurrence (`seen` set plus append loop). -/
def dedup_by_enzyme (ms : List EnzMeta) : List EnzMeta :=
  ms.foldl (fun acc m => if (acc.map (·.enzyme)).contains m.enzyme then acc else acc ++ [m]) []

/-- Lookup in the `cut_metadata` dict (modelled as an association list keyed
by the raw cut position). -/
def lookup_meta (md : List (Int × List EnzMeta)) (p : Int) : Option (List EnzMeta) :=
  (md.find? fun kv => kv.1 == p).map (·.2)

/-- The `pos_to_enzymes` mapping built at the top of `compute_fragments` /
`compute_fragments_with_sequences` / `extract_fragment_ends_for_ligation`:
for a normalized position, walk the raw cut positions in order, and whenever
one normalizes to this position and has metadata, append its metadata list;
finally deduplicate by enzyme name. -/
def pos_to_enzymes (cut_positions : List Int) (md : List (Int × List EnzMeta))
    (seq_len : Nat) (pos : Nat) : List EnzMeta :=
  dedup_by_enzyme <| cut_positions.foldl
    (fun acc orig =>
      if (orig % (seq_len : Int)).toNat = pos then
        match lookup_meta md orig with
        | some ms => acc ++ ms
        | none => acc
      else acc) []

/-- `sorted(set(p % seq_len for p in cut_positions))`: normalize every raw
cut position modulo the sequence length, deduplicate, sort ascending. -/
def norm_cuts (cut_positions : List Int) (seq_len : Nat) : List Nat :=
  List.insertionSort (· ≤ ·) ((cut_positions.map fun p => (p % (seq_len : Int)).toNat).dedup)

/-- One side of a fragment boundary: the cut position and the enzymes cutting
there. -/
structure CutBoundary where
  pos : Nat
  enzymes : List EnzMeta
deriving DecidableEq, Repr

/-- The `boundaries` dict of a legacy fragment. -/
structure Boundaries where
  left_cut : Option CutBoundary
  right_cut : Option CutBoundary
deriving DecidableEq, Repr

/-- A legacy fragment dict from `compute_fragments`; `stop` models the
Python key `end`. -/
structure Frag where
  index : Nat
  length : Nat
  start : Nat
  stop : Nat
  wraps : Bool
  boundaries : Boundaries
deriving DecidableEq, Repr

/-- The middle-fragment builder of `compute_fragments`: the body of the
`for i in range(n - 1)` loops, taking the enumerated pair
(`i`, (`ps[i]`, `ps[i+1]`)) to a fragment; `idx0` is the index offset (1 in
the linear branch, 0 in the circular branch). -/
def mid_frag (p2e : Nat → List EnzMeta) (idx0 : Nat) (ie : Nat × (Nat × Nat)) : Frag :=
  ⟨ie.1 + idx0, ie.2.2 - ie.2.1, ie.2.1, ie.2.2, false,
    ⟨some ⟨ie.2.1, p2e ie.2.1⟩, some ⟨ie.2.2, p2e ie.2.2⟩⟩⟩

/-- Body of `compute_fragments` (fragment_calculator.py lines 437–690) after
the positivity check: the topology / cut-count state machine producing the
ordered fragment list. -/
def compute_fragments_pos (cut_positions : List Int) (seq_len : Nat) (circular : Bool)
    (circular_single_cut_linearizes : Bool) (md : List (Int × List EnzMeta)) : List Frag :=
  let p2e := pos_to_enzymes cut_positions md seq_len
  if circular = false then
    match norm_cuts cut_positions seq_len with
    | [] => [⟨0, seq_len, 0, seq_len, false, ⟨none, none⟩⟩]
    | p0 :: rest =>
      let ps := p0 :: rest
      let lastCut := ps.getLastD 0
      let first : Frag := ⟨0, p0, 0, p0, false, ⟨none, some ⟨p0, p2e p0⟩⟩⟩
      let mids : List Frag := ((ps.zip rest).enum).map (mid_frag p2e 1)
      let lastF : Frag := ⟨ps.length, seq_len - lastCut, lastCut, seq_len, false,
        ⟨some ⟨lastCut, p2e lastCut⟩, none⟩⟩
      first :: mids ++ [lastF]
  else
    match norm_cuts cut_positions seq_len with
    | [] => [⟨0, seq_len, 0, 0, true, ⟨none, none⟩⟩]
    | [p0] =>
      if circular_single_cut_linearizes then
        [⟨0, seq_len - p0, p0, seq_len, false, ⟨some ⟨p0, p2e p0⟩, some ⟨p0, p2e p0⟩⟩⟩,
         ⟨1, p0, 0, p0, false, ⟨some ⟨p0, p2e p0⟩, some ⟨p0, p2e p0⟩⟩⟩]
      else [⟨0, seq_len, 0, 0, true, ⟨none, none⟩⟩]
    | p0 :: p1 :: rest =>
      let ps := p0 :: p1 :: rest
      let lastCut := ps.getLastD 0
      let mids : List Frag := ((ps.zip (p1 :: rest)).enum).map (mid_frag p2e 0)
      let wrapF : Frag := ⟨ps.length - 1, (seq_len - lastCut) + p0, lastCut, p0, true,
        ⟨some ⟨lastCut, p2e lastCut⟩, some ⟨p0, p2e p0⟩⟩⟩
      mids ++ [wrapF]

/-- `compute_fragments` from fragment_calculator.py: raises `ValueError`
(modelled as `Except.error`) when `seq_len <= 0`, otherwise runs the state
machine. -/
def compute_fragments (cut_positions : List Int) (seq_len : Int) (circular : Bool)
    (circular_single_cut_linearizes : Bool) (md : List (Int × List EnzMeta)) :
    Except String (List Frag) :=
  if seq_len ≤ 0 then
    .error ("Sequence length must be positive, got " ++ toString seq_len)
  else
    .ok (compute_fragments_pos cut_positions seq_len.toNat circular
      circular_single_cut_linearizes md)

/-- `validate_fragment_total` from fragment_calculator.py, lines 693–705. -/
def validate_fragment_total (fragments : List Frag) (expected_length : Nat) : Bool :=
  (fragments.map Frag.length).sum == expected_length

/-- The `EndInfo` NamedTuple of fragment_calculator.py (distinct from the
ligation-compatibility `EndInfo`). -/
structure FcEndInfo where
  enzyme : String
  recognition_site : List Char
  cut_index : Int
  overhang_type : String
  end_type : String
  overhang_len : Nat
  end_bases : List Char
deriving DecidableEq, Repr

/-- `build_end_info` from fragment_calculator.py, lines 382–430: wraps
`compute_end_metadata`. -/
def build_end_info (em : EnzMeta) (seq : List Char) (cut_pos : Int) (is_left_end : Bool)
    (circular : Bool) : FcEndInfo :=
  let m := compute_end_metadata seq cut_pos em.site em.cut_index em.overhang_type
    is_left_end circular
  ⟨em.enzyme, em.site, em.cut_index, em.overhang_type, em.overhang_type,
    m.overhang_len, m.end_bases⟩

/-- The `Fragment` NamedTuple of fragment_calculator.py. -/
structure Fragment where
  start_idx : Nat
  end_idx : Nat
  length : Nat
  sequence : List Char
  enzymes_at_ends : Option FcEndInfo × Option FcEndInfo
  wraps : Bool
deriving DecidableEq, Repr

/-- `compute_fragments_with_sequences` from fragment_calculator.py, lines
712–931: the same state machine as `compute_fragments`, additionally carrying
the fragment sequences (plain slices, and a wrap-aware slice for the
origin-crossing fragment) and per-end `build_end_info` metadata for the first
enzyme at each boundary. -/
def compute_fragments_with_sequences (dna : List Char) (cut_positions : List Int)
    (circular : Bool) (circular_single_cut_linearizes : Bool)
    (md : List (Int × List EnzMeta)) : List Fragment :=
  let seq_len := dna.length
  if seq_len = 0 then []
  else
    let p2e := pos_to_enzymes cut_positions md seq_len
    let mkEnd := fun (pos : Nat) (is_left : Bool) =>
      (p2e pos).head?.map fun m => build_end_info m dna pos is_left circular
    if circular = false then
      match norm_cuts cut_positions seq_len with
      | [] => [⟨0, seq_len, seq_len, dna, (none, none), false⟩]
      | p0 :: rest =>
        let ps := p0 :: rest
        let lastCut := ps.getLastD 0
        let first : Fragment :=
          ⟨0, p0, p0, pySlice dna 0 p0, (none, mkEnd p0 false), false⟩
        let mids : List Fragment := (ps.zip rest).map fun q =>
          ⟨q.1, q.2, q.2 - q.1, pySlice dna q.1 q.2,
            (mkEnd q.1 true, mkEnd q.2 false), false⟩
        let lastF : Fragment :=
          ⟨lastCut, seq_len, seq_len - lastCut, pySlice dna lastCut seq_len,
            (mkEnd lastCut true, none), false⟩
        first :: mids ++ [lastF]
    else
      match norm_cuts cut_positions seq_len with
      | [] => [⟨0, 0, seq_len, dna, (none, none), true⟩]
      | [p0] =>
        if circular_single_cut_linearizes then
          let e := mkEnd p0 true
          [⟨p0, seq_len, seq_len - p0, pySlice dna p0 seq_len, (e, e), false⟩,
           ⟨0, p0, p0, pySlice dna 0 p0, (e, e), false⟩]
        else [⟨0, 0, seq_len, dna, (none, none), true⟩]
      | p0 :: p1 :: rest =>
        let ps := p0 :: p1 :: rest
        let lastCut := ps.getLastD 0
        let mids : List Fragment := (ps.zip (p1 :: rest)).map fun q =>
          ⟨q.1, q.2, q.2 - q.1, pySlice dna q.1 q.2,
            (mkEnd q.1 true, mkEnd q.2 false), false⟩
        let wrapF : Fragment :=
          ⟨lastCut, p0, (seq_len - lastCut) + p0,
            slice_circular dna lastCut p0,
            (mkEnd lastCut true, mkEnd p0 false), true⟩
        mids ++ [wrapF]

/-! ## Cut-site scanning (sim.py)

The spec scopes recognition-site pattern matching out of the core and fixes
only its interface (cut positions in `[0, seq_len)`).  The source
(`iupac_to_regex` in sim.py) raises on site characters outside the IUPAC
alphabet; the model lets such characters match nothing — every claim
exercises only valid sites. -/

/-- The IUPAC degenerate-base table of sim.py (`IUPAC`), as the set of
concrete bases each (uppercase) letter stands for. -/
def iupacSet (c : Char) : Option (List Char) :=
  if c == 'A' then some ['A'] else if c == 'C' then some ['C']
  else if c == 'G' then some ['G'] else if c == 'T' then some ['T']
  else if c == 'R' then some ['A', 'G'] else if c == 'Y' then some ['C', 'T']
  else if c == 'W' then some ['A', 'T'] else if c == 'S' then some ['G', 'C']
  else if c == 'M' then some ['A', 'C'] else if c == 'K' then some ['G', 'T']
  else if c == 'B' then some ['C', 'G', 'T'] else if c == 'D' then some ['A', 'G', 'T']
  else if c == 'H' then some ['A', 'C', 'T'] else if c == 'V' then some ['A', 'C', 'G']
  else if c == 'N' then some ['A', 'C', 'G', 'T'] else none

/-- Does the (uppercased) site character match the sequence character,
case-insensitively, under the IUPAC table? -/
def charSiteMatch (sc c : Char) : Bool :=
  match iupacSet (upChar sc) with
  | some cs => cs.contains (upChar c)
  | none => false

/-- Does the recognition site match the sequence starting at index `i`?
Models one lookahead position of the compiled `(?=...)` regex with
`re.IGNORECASE`. -/
def siteMatchesAt (dna site : List Char) (i : Nat) : Bool :=
  decide (i + site.length ≤ dna.length) &&
    (site.zip (dna.drop i)).all fun q => charSiteMatch q.1 q.2

/-- `find_cut_sites` from sim.py, lines 246–285: every overlapping match
start plus `cut_index` gives a break position; circular sequences wrap it
modulo the length, linear ones drop out-of-range positions. -/
def find_cut_sites (dna site : List Char) (cut_index : Int) (circular : Bool) : List Int :=
  (List.range (dna.length + 1)).foldl
    (fun acc i =>
      if siteMatchesAt dna site i then
        let bp : Int := (i : Int) + cut_index
        if circular then acc ++ [bp % (dna.length : Int)]
        else if bp < 0 ∨ bp > (dna.length : Int) then acc
        else acc ++ [bp]
      else acc) []

/-- One record of the enzyme database (`enzymes.json` entries as consumed by
the planner): `sequence` and `cut_index` are accessed directly,
`overhang_type` through `.get(..., 'Unknown')`. -/
structure EnzInfo where
  sequence : List Char
  cut_index : Int
  overhang_type : Option String := none
deriving DecidableEq, Repr

/-- The enzyme database dict, as an association list in insertion order. -/
def db_lookup (db : List (String × EnzInfo)) (name : String) : Option EnzInfo :=
  (db.find? fun kv => kv.1 == name).map (·.2)

/-- `find_cut_positions_linear` from sim.py, lines 320–340. -/
def find_cut_positions_linear (seq : List Char) (enzyme_name : String)
    (db : List (String × EnzInfo)) (circular : Bool) : List Int :=
  match db_lookup db enzyme_name with
  | none => []
  | some info => find_cut_sites seq info.sequence info.cut_index circular

/-! ## Planner data model (planner.py) -/

/-- A feature annotation dict; `check_internal_cuts` reads `type` directly
and `start` / `end` through `.get`. -/
structure Feature where
  ftype : String
  frame : Option Int := none
  fstart : Option Int := none
  fstop : Option Int := none
  label : Option String := none
  direction : Option String := none
deriving DecidableEq, Repr

/-- `Construct` from planner.py. -/
structure Construct where
  name : String
  seq : List Char
  circular : Bool
  features : List Feature := []
  origin : Int := 0
  notes : String := ""
deriving DecidableEq, Repr

/-- The `params` dict of a `Step`; exactly the keys the planner reads,
each through `.get` with the defaults used at the call sites. -/
structure Params where
  enzymes : Option (List String) := none
  dephosphorylate : Option Bool := none
  internal_cuts : Option Nat := none
  directional : Option Bool := none
  scar : Option (List Char) := none
  enzyme : Option String := none
  overhangs : Option (List String) := none
deriving DecidableEq, Repr

/-- One entry of `predicted_fragments`. -/
structure PredFrag where
  length : Nat
  left_end : Option FcEndInfo
  right_end : Option FcEndInfo
deriving DecidableEq, Repr

/-- `Step` from planner.py; costs are Python floats, modelled as exact
rationals. -/
structure Step where
  name : String
  action : String
  inputs : List String
  params : Params
  outputs : List String
  predicted_fragments : List PredFrag
  cost : ℚ := 0
deriving DecidableEq, Repr

/-- `Plan` from planner.py.  `score = none` models the float `inf` used by
the infeasible result paths. -/
structure Plan where
  steps : List Step
  final : Option Construct
  score : Option ℚ
  feasible : Bool := true
  reason : String := ""
deriving DecidableEq, Repr

/-- `SearchState` from planner.py.  The `frozenset` of constructs is
modelled as a list in insertion order (the set's iteration order is not
observable in any claim under study). -/
structure SearchState where
  constructs : List Construct
  steps_taken : List Step
  cost : ℚ
  heuristic : ℚ
deriving DecidableEq, Repr

/-- `construct_signature` from planner.py, lines 26–45: a frozenset of
`(name, len(seq), circular, origin, sha1(seq)[:12])` tuples.  The truncated
SHA-1 digest of the sequence is modelled by the sequence itself — an
injective stand-in; hash collisions are not modelled. -/
def construct_signature (constructs : List Construct) :
    Finset (String × Nat × Bool × Int × List Char) :=
  (constructs.map fun c => (c.name, c.seq.length, c.circular, c.origin, c.seq)).toFinset

instance signatureDecEq : DecidableEq (Finset (String × Nat × Bool × Int × List Char)) :=
  Finset.decidableEq

/-- `SearchState.__lt__` from planner.py, lines 102–104: priority-queue
ordering by `f = g + h` — and nothing else. -/
def SearchState.lt (a b : SearchState) : Bool :=
  decide (a.cost + a.heuristic < b.cost + b.heuristic)

/-- `SearchState.signature` from planner.py. -/
def SearchState.signature (s : SearchState) :
    Finset (String × Nat × Bool × Int × List Char) :=
  construct_signature s.constructs

/-- The target-assembly dict: `order`, `junctions` (only its length is read)
and the `target_name` key written by `plan_from_spec`. -/
structure TargetSpec where
  order : List String := []
  junctions : List String := []
  target_name : Option String := none
deriving DecidableEq, Repr

/-- The planner options dict: exactly the keys read via `.get`. -/
structure Options where
  max_steps : Option Nat := none
  beam_width : Option Nat := none
  avoid_internal_cuts : Option Bool := none
  require_directional : Option Bool := none
  prefer_typeIIS : Option Bool := none
  avoid_enzymes : Option (List String) := none
  allow_enzymes : Option (List String) := none
  min_overhang : Option Int := none
deriving DecidableEq, Repr

/-- `check_internal_cuts` from planner.py, lines 183–219: count cuts falling
inside a CDS feature (each cut counted once). -/
def check_internal_cuts (seq : List Char) (enzyme_name : String)
    (db : List (String × EnzInfo)) (features : List Feature)
    (avoid_cds : Bool) : Nat :=
  if (db_lookup db enzyme_name).isNone then 0
  else
    let cuts := find_cut_positions_linear seq enzyme_name db false
    if !avoid_cds || features.isEmpty then 0
    else
      cuts.countP fun cut_pos =>
        features.any fun feat =>
          feat.ftype == "CDS" &&
            decide (feat.fstart.getD 0 ≤ cut_pos ∧ cut_pos < feat.fstop.getD seq.length)

/-- `calculate_heuristic` from planner.py, lines 391–431. -/
def calculate_heuristic (state : SearchState) (target_spec : TargetSpec)
    (options : Options) : ℚ :=
  let construct_names := (state.constructs.map (·.name)).toFinset
  let target_constructs := target_spec.order.toFinset
  let missing_constructs := target_constructs \ construct_names
  (missing_constructs.card : ℚ) * 1 + (target_spec.junctions.length : ℚ) * (1 / 2) +
    (if options.avoid_internal_cuts.getD true then 1 / 10 else 0)

/-- `score_plan` from planner.py, lines 434–511.  The Python sets and the
count dict are modelled by `Finset` / multiplicity counts; floats by
rationals. -/
def score_plan (plan : Plan) (options : Options) : ℚ :=
  let s_steps : ℚ := plan.steps.length
  let enzymes_used : Finset String := plan.steps.foldl
    (fun acc step =>
      if step.action == "digest" then acc ∪ (step.params.enzymes.getD []).toFinset
      else if step.action == "GG" then insert (step.params.enzyme.getD "") acc
      else acc) ∅
  let s_enzymes : ℚ := (1 / 2) * enzymes_used.card
  let buffer_switches : Nat := enzymes_used.card - 1
  let s_buffer : ℚ := (3 / 10) * buffer_switches
  let s_nondirectional : ℚ :=
    if options.require_directional.getD false then
      ((plan.steps.filter fun step =>
        step.action == "ligate" && !step.params.directional.getD false).length : ℚ)
    else 0
  let s_internal : ℚ := 2 * ((plan.steps.map fun step => step.params.internal_cuts.getD 0).sum : ℚ)
  let s_scar : ℚ := (1 / 10) *
    (((plan.steps.filter fun step => step.action == "ligate" || step.action == "GG").map
      fun step => (step.params.scar.getD []).length).sum : ℚ)
  let s_gg : ℚ :=
    if options.prefer_typeIIS.getD false then
      (2 / 5) * ((plan.steps.filter fun step => step.action == "GG").length : ℚ)
    else 0
  let digest_enzymes : List String := plan.steps.foldl
    (fun acc step =>
      if step.action == "digest" then acc ++ step.params.enzymes.getD [] else acc) []
  let s_reuse : ℚ := Finset.sum digest_enzymes.toFinset fun e =>
    if 1 < digest_enzymes.count e then (3 / 10) * ((digest_enzymes.count e : ℚ) - 1) else 0
  s_steps + s_enzymes + s_buffer + s_nondirectional + s_internal + s_scar - s_gg - s_reuse

/-! ## Action generators and search (planner.py) -/

/-- Append one metadata record to the `cut_metadata` dict of
`simulate_digest`. -/
def md_append (md : List (Int × List EnzMeta)) (pos : Int) (m : EnzMeta) :
    List (Int × List EnzMeta) :=
  if (md.find? fun kv => kv.1 == pos).isSome then
    md.map fun kv => if kv.1 == pos then (kv.1, kv.2 ++ [m]) else kv
  else md ++ [(pos, [m])]

/-- `sorted(set(...))` on raw (integer) cut positions. -/
def sorted_dedup_int (l : List Int) : List Int :=
  List.insertionSort (· ≤ ·) l.dedup

/-- `simulate_digest` from planner.py, lines 282–332: find all cuts of the
given enzymes, collect per-position metadata, and compute fragments with
sequences (always linearizing a single circular cut). -/
def simulate_digest (construct : Construct) (enzymes : List String)
    (db : List (String × EnzInfo)) : List Fragment :=
  let acc := enzymes.foldl
    (fun (acc : List Int × List (Int × List EnzMeta)) enzyme_name =>
      match db_lookup db enzyme_name with
      | none => acc
      | some info =>
        let cuts := find_cut_positions_linear construct.seq enzyme_name db false
        let md := cuts.foldl
          (fun md pos =>
            md_append md pos
              ⟨enzyme_name, info.sequence, info.cut_index,
                info.overhang_type.getD "Unknown"⟩) acc.2
        (acc.1 ++ cuts, md)) ([], [])
  let all_cuts := sorted_dedup_int acc.1
  compute_fragments_with_sequences construct.seq all_cuts construct.circular true acc.2

/-- `generate_digest_actions` from planner.py, lines 518–625. -/
def generate_digest_actions (state : SearchState) (db : List (String × EnzInfo))
    (options : Options) : List Step :=
  let avoid_enzymes := options.avoid_enzymes.getD []
  let allow_enzymes := options.allow_enzymes.getD []
  let available_enzymes : List String :=
    if !allow_enzymes.isEmpty then
      allow_enzymes.filter fun e => (db_lookup db e).isSome && !avoid_enzymes.contains e
    else (db.map (·.1)).filter fun e => !avoid_enzymes.contains e
  let actions := state.constructs.foldl
    (fun acc construct =>
      if construct.seq.length < 10 then acc
      else
        let acc := (available_enzymes.take 20).foldl
          (fun acc2 enzyme =>
            let internal_cuts :=
              if options.avoid_internal_cuts.getD true then
                check_internal_cuts construct.seq enzyme db construct.features true
              else 0
            if options.avoid_internal_cuts.getD true && decide (0 < internal_cuts) then acc2
            else
              let fragments := simulate_digest construct [enzyme] db
              if fragments.length ≤ 1 then acc2
              else
                acc2 ++ [{
                  name := "Digest_" ++ construct.name ++ "_with_" ++ enzyme,
                  action := "digest",
                  inputs := [construct.name],
                  params := { enzymes := some [enzyme],
                              dephosphorylate := some construct.circular,
                              internal_cuts := some internal_cuts },
                  outputs := (List.range fragments.length).map
                    fun i => construct.name ++ "_frag" ++ toString i,
                  predicted_fragments := fragments.map
                    fun fr => ⟨fr.length, fr.enzymes_at_ends.1, fr.enzymes_at_ends.2⟩,
                  cost := 1 }]) acc
        ((available_enzymes.take 10).enum).foldl
          (fun acc2 ie =>
            let enz1 := ie.2
            ((available_enzymes.take 10).drop (ie.1 + 1)).foldl
              (fun acc3 enz2 =>
                let internal_cuts :=
                  if options.avoid_internal_cuts.getD true then
                    check_internal_cuts construct.seq enz1 db construct.features true +
                      check_internal_cuts construct.seq enz2 db construct.features true
                  else 0
                if options.avoid_internal_cuts.getD true && decide (0 < internal_cuts) then
                  acc3
                else
                  let fragments := simulate_digest construct [enz1, enz2] db
                  if fragments.length ≤ 1 then acc3
                  else
                    acc3 ++ [{
                      name := "Digest_" ++ construct.name ++ "_with_" ++ enz1 ++ "+" ++ enz2,
                      action := "digest",
                      inputs := [construct.name],
                      params := { enzymes := some [enz1, enz2],
                                  dephosphorylate := some construct.circular,
                                  internal_cuts := some internal_cuts },
                      outputs := (List.range fragments.length).map
                        fun i => construct.name ++ "_frag" ++ toString i,
                      predicted_fragments := fragments.map
                        fun fr => ⟨fr.length, fr.enzymes_at_ends.1, fr.enzymes_at_ends.2⟩,
                      cost := 6 / 5 }]) acc2) acc) []
  actions.take 50

/-- `generate_ligation_actions` from planner.py, lines 628–671: every
unordered pair of constructs with at least one non-circular member yields a
placeholder ligation step (no end-compatibility check in the source). -/
def generate_ligation_actions (state : SearchState) (options : Options) : List Step :=
  let constructs_list := state.constructs
  let actions := (constructs_list.enum).foldl
    (fun acc ia =>
      (constructs_list.drop (ia.1 + 1)).foldl
        (fun acc2 const_b =>
          if ia.2.circular && const_b.circular then acc2
          else
            acc2 ++ [{
              name := "Ligate_" ++ ia.2.name ++ "+" ++ const_b.name,
              action := "ligate",
              inputs := [ia.2.name, const_b.name],
              params := { directional := some true, scar := some "NNNN".data },
              outputs := [ia.2.name ++ "_" ++ const_b.name ++ "_ligated"],
              predicted_fragments := [],
              cost := 1 }]) acc) []
  actions.take 20

/-- `generate_golden_gate_actions` from planner.py, lines 674–706: the source
derives a Type-IIS candidate list but then returns the empty placeholder
action list. -/
def generate_golden_gate_actions (_state : SearchState) (_db : List (String × EnzInfo))
    (_options : Options) : List Step :=
  []

/-- `enumerate_actions` from planner.py, lines 709–737. -/
def enumerate_actions (state : SearchState) (db : List (String × EnzInfo))
    (options : Options) : List Step :=
  generate_digest_actions state db options ++
    generate_ligation_actions state options ++
    (if options.prefer_typeIIS.getD false then
      generate_golden_gate_actions state db options
    else [])

/-- `apply_action` from planner.py, lines 740–780: drop the input constructs,
append placeholder outputs, extend the step list and cost. -/
def apply_action (step : Step) (state : SearchState)
    (_db : List (String × EnzInfo)) : Option SearchState :=
  let constructs := state.constructs.filter fun c => !step.inputs.contains c.name
  let constructs := constructs ++ step.outputs.map fun output_name =>
    ({ name := output_name, seq := "PLACEHOLDER".data, circular := false,
       features := [], notes := "Generated by " ++ step.action } : Construct)
  some ⟨constructs, state.steps_taken ++ [step], state.cost + step.cost, 0⟩

/-- Comparison against the float `inf` sentinel (`none`) of `best_score`. -/
def lt_inf (c : ℚ) (best_score : Option ℚ) : Bool :=
  match best_score with
  | none => true
  | some s => decide (c < s)

/-- Pop the leftmost minimal state under `SearchState.lt` — a deterministic
model of `heapq.heappop` (the heap's tie order among equal keys is
unspecified; no claim under study depends on it). -/
def pop_min : List SearchState → Option (SearchState × List SearchState)
  | [] => none
  | x :: xs =>
    match pop_min xs with
    | none => some (x, [])
    | some (m, rest) => if SearchState.lt m x then some (m, x :: rest) else some (x, xs)

/-- Pop up to `k` best states (`for _ in range(min(beam_width, len(frontier)))`). -/
def pop_beam (k : Nat) (l : List SearchState) : List SearchState × List SearchState :=
  match k with
  | 0 => ([], l)
  | k + 1 =>
    match pop_min l with
    | none => ([], l)
    | some (m, rest) =>
      let br := pop_beam k rest
      (m :: br.1, br.2)

/-- The body of the `while frontier:` loop of `beam_search`, with an explicit
fuel bound (the source's loop has no internal bound); `none` means the fuel
ran out before the loop terminated, `some best_plan` is the loop's result. -/
def beam_loop (fuel : Nat) (max_steps beam_width : Nat) (target_spec : TargetSpec)
    (db : List (String × EnzInfo)) (options : Options)
    (frontier : List SearchState)
    (visited : List (Finset (String × Nat × Bool × Int × List Char)))
    (best_plan : Option Plan) (best_score : Option ℚ) : Option (Option Plan) :=
  match fuel with
  | 0 => none
  | fuel + 1 =>
    if frontier.isEmpty then some best_plan
    else
      let popped := pop_beam (min beam_width frontier.length) frontier
      let res := popped.1.foldl
        (fun (acc : List SearchState ×
            List (Finset (String × Nat × Bool × Int × List Char)) ×
            Option Plan × Option ℚ) state =>
          let front := acc.1
          let vis := acc.2.1
          let bp := acc.2.2.1
          let bs := acc.2.2.2
          let state_key := state.signature
          if state_key ∈ vis then acc
          else
            let vis2 := state_key :: vis
            if max_steps ≤ state.steps_taken.length then
              let plan : Plan :=
                { steps := state.steps_taken, final := none, score := some state.cost,
                  feasible := true, reason := "" }
              if lt_inf state.cost bs then (front, vis2, some plan, some state.cost)
              else (front, vis2, bp, bs)
            else
              let target_name := target_spec.target_name.getD "final"
              if (state.constructs.map fun c => c.name).contains target_name then
                let final_construct := state.constructs.find? fun c => c.name == target_name
                let plan : Plan :=
                  { steps := state.steps_taken, final := final_construct,
                    score := some state.cost, feasible := true, reason := "" }
                if lt_inf state.cost bs then (front, vis2, some plan, some state.cost)
                else (front, vis2, bp, bs)
              else
                let actions := enumerate_actions state db options
                let front2 := actions.foldl
                  (fun fr action =>
                    match apply_action action state db with
                    | none => fr
                    | some new_state =>
                      fr ++ [{ new_state with
                        heuristic := calculate_heuristic new_state target_spec options }])
                  front
                (front2, vis2, bp, bs))
        (popped.2, visited, best_plan, best_score)
      beam_loop fuel max_steps beam_width target_spec db options res.1 res.2.1
        res.2.2.1 res.2.2.2

/-- `beam_search` from planner.py, lines 787–893, with a fuel bound on the
outer loop. -/
def beam_search (fuel : Nat) (initial_state : SearchState) (target_spec : TargetSpec)
    (db : List (String × EnzInfo)) (options : Options) : Option (Option Plan) :=
  let max_steps := options.max_steps.getD 3
  let beam_width := options.beam_width.getD 10
  let init := { initial_state with
    cost := 0, heuristic := calculate_heuristic initial_state target_spec options }
  beam_loop fuel max_steps beam_width target_spec db options [init] [] none none

/-! ## Spec loading and the main planning interface -/

/-- `read_dna_sequence` from sim.py, lines 200–242: inputs naming a FASTA
file are read from the (explicitly passed) file system `fs`, other inputs
are taken as literal sequences; whitespace is removed, the result is
uppercased and validated against the IUPAC alphabet. -/
def read_dna_sequence (fs : List (String × String)) (seq_input : String) :
    Except String (List Char) :=
  let lower := seq_input.data.map Char.toLower
  let is_path := [".fasta".data, ".txt".data, ".fa".data].any fun ext =>
    decide (ext <:+: lower)
  let contentE : Except String (List Char) :=
    if is_path then
      match (fs.find? fun kv => kv.1 == seq_input).map (·.2) with
      | none => .error ("File \x27" ++ seq_input ++ "\x27 not found")
      | some text =>
        let lines := text.data.splitOn '\n'
        let kept := lines.filter fun line =>
          let stripped := (line.dropWhile Char.isWhitespace).reverse.dropWhile
            Char.isWhitespace |>.reverse
          !stripped.isEmpty && stripped.head? != some '>'
        .ok (kept.map fun line =>
          ((line.dropWhile Char.isWhitespace).reverse.dropWhile
            Char.isWhitespace).reverse).flatten
    else .ok seq_input.data
  match contentE with
  | .error e => .error e
  | .ok content =>
    let sequence := (content.filter fun c => !c.isWhitespace).map upChar
    let valid_bases := "ATCGRYWSMKNBDHV".data
    if sequence.all (fun base => valid_bases.contains base) then .ok sequence
    else .error "Invalid DNA characters found"

/-- The `vector` sub-dict of a cloning spec. -/
structure VectorSpec where
  name : Option String := none
  fasta : Option String := none
  circular : Option Bool := none
deriving DecidableEq, Repr

/-- One feature dict inside an insert spec. -/
structure FeatureDict where
  ftype : Option String := none
  frame : Option Int := none
  fstart : Option Int := none
  fstop : Option Int := none
  label : Option String := none
  direction : Option String := none
deriving DecidableEq, Repr

/-- One `inserts[]` entry of a cloning spec. -/
structure InsertSpec where
  name : Option String := none
  fasta : Option String := none
  features : List FeatureDict := []
deriving DecidableEq, Repr

/-- The `constraints` sub-dict of a cloning spec. -/
structure Constraints where
  avoid_internal_cuts : Option Bool := none
  min_overhang : Option Int := none
deriving DecidableEq, Repr

/-- A cloning specification as consumed by `plan_from_spec`. -/
structure CloneSpec where
  vector : Option VectorSpec := none
  inserts : List InsertSpec := []
  target : Option TargetSpec := none
  constraints : Option Constraints := none
deriving DecidableEq, Repr

/-- `extract_features_from_spec` from planner.py, lines 158–180. -/
def extract_features_from_spec (features_list : List FeatureDict) : List Feature :=
  features_list.foldl
    (fun acc feat =>
      match feat.ftype with
      | none => acc
      | some t =>
        acc ++ [{ ftype := t, frame := some (feat.frame.getD 0),
                  fstart := some (feat.fstart.getD 0), fstop := some (feat.fstop.getD 0),
                  label := some (feat.label.getD ""),
                  direction := some (feat.direction.getD "forward") }]) []

/-- The insert-reading loop of `plan_from_spec`: read each insert in order,
stopping at the first failure with the failing insert's name. -/
def read_inserts (fs : List (String × String)) :
    List InsertSpec → Nat → Except (String × String) (List Construct)
  | [], _ => .ok []
  | ispec :: rest, k =>
    let insert_name := ispec.name.getD ("insert_" ++ toString k)
    match read_dna_sequence fs (ispec.fasta.getD "") with
    | .error e => .error (insert_name, e)
    | .ok insert_seq =>
      (read_inserts fs rest (k + 1)).map fun cs =>
        ({ name := insert_name, seq := insert_seq, circular := false,
           features := extract_features_from_spec ispec.features,
           notes := "Insert" } : Construct) :: cs

/-- `plan_from_spec` from planner.py, lines 900–1006, with the search fuel
made explicit (`none` = fuel exhausted before the source's loop finished).
The initial `frozenset([vector] + inserts)` is modelled as the
deduplicated list in that order. -/
def plan_from_spec (fuel : Nat) (fs : List (String × String)) (spec : CloneSpec)
    (db : List (String × EnzInfo)) (max_steps : Nat) (options : Options) :
    Option Plan :=
  let options := { options with max_steps := some max_steps }
  let vector_spec := spec.vector.getD {}
  let vector_name := vector_spec.name.getD "vector"
  let vector_fasta := vector_spec.fasta.getD ""
  let vector_circular := vector_spec.circular.getD true
  match read_dna_sequence fs vector_fasta with
  | .error e =>
    some { steps := [], final := none, score := none, feasible := false,
           reason := "Could not read vector: " ++ e }
  | .ok vector_seq =>
    let vector : Construct :=
      { name := vector_name, seq := vector_seq, circular := vector_circular,
        notes := "Vector" }
    match read_inserts fs spec.inserts 0 with
    | .error ie =>
      some { steps := [], final := none, score := none, feasible := false,
             reason := "Could not read insert " ++ ie.1 ++ ": " ++ ie.2 }
    | .ok inserts =>
      let initial_state : SearchState :=
        ⟨([vector] ++ inserts).dedup, [], 0, 0⟩
      let constraints := spec.constraints.getD {}
      let options := { options with
        avoid_internal_cuts := some (constraints.avoid_internal_cuts.getD true),
        min_overhang := some (constraints.min_overhang.getD 4) }
      let target_spec := { spec.target.getD {} with target_name := some "final" }
      match beam_search fuel initial_state target_spec db options with
      | none => none
      | some none =>
        some { steps := [], final := none, score := none, feasible := false,
               reason := "No feasible plan found within max_steps" }
      | some (some plan) =>
        some { plan with score := some (score_plan plan options) }

/-! ## Spec-side scoring formula (for C7) -/

/-- The enzyme labels referenced by the plan's digest steps, with
multiplicity. -/
def digest_enzyme_list (p : Plan) : List String :=
  ((p.steps.filter fun st => st.action == "digest").map
    fun st => st.params.enzymes.getD []).flatten

/-- The enzyme labels referenced by the plan's Golden Gate steps (an absent
`enzyme` key contributes the empty label, as in the source). -/
def gg_enzyme_list (p : Plan) : List String :=
  (p.steps.filter fun st => st.action == "GG").map fun st => st.params.enzyme.getD ""

/-- The distinct enzyme labels used by the plan. -/
def spec_enzymes_used (p : Plan) : Finset String :=
  (digest_enzyme_list p).toFinset ∪ (gg_enzyme_list p).toFinset

/-- The claimed scoring formula, literally: the buffer-switch term is
`0.3 × (distinct_enzymes − 1)` in exact (rational) arithmetic, which is
negative when no enzyme is used. -/
def claim_score_formula (p : Plan) (o : Options) : ℚ :=
  1 * (p.steps.length : ℚ) + (1 / 2) * ((spec_enzymes_used p).card : ℚ) +
    (3 / 10) * (((spec_enzymes_used p).card : ℚ) - 1) +
    (if o.require_directional.getD false then
      ((p.steps.filter fun st =>
        st.action == "ligate" && !st.params.directional.getD false).length : ℚ)
    else 0) +
    2 * ((p.steps.map fun st => st.params.internal_cuts.getD 0).sum : ℚ) +
    (1 / 10) * (((p.steps.filter fun st =>
      st.action == "ligate" || st.action == "GG").map
        fun st => (st.params.scar.getD []).length).sum : ℚ) -
    (if o.prefer_typeIIS.getD false then
      (2 / 5) * ((p.steps.filter fun st => st.action == "GG").length : ℚ)
    else 0) -
    Finset.sum (digest_enzyme_list p).toFinset (fun e =>
      if 1 < (digest_enzyme_list p).count e then
        (3 / 10) * (((digest_enzyme_list p).count e : ℚ) - 1)
      else 0)

/-- The amended scoring formula: identical to the claim's except that the
buffer-switch term is `0.3 × max(0, distinct_enzymes − 1)` (natural
subtraction), matching the source's `max(0, len(enzymes_used) - 1)`. -/
def amended_score_formula (p : Plan) (o : Options) : ℚ :=
  1 * (p.steps.length : ℚ) + (1 / 2) * ((spec_enzymes_used p).card : ℚ) +
    (3 / 10) * (((spec_enzymes_used p).card - 1 : Nat) : ℚ) +
    (if o.require_directional.getD false then
      ((p.steps.filter fun st =>
        st.action == "ligate" && !st.params.directional.getD false).length : ℚ)
    else 0) +
    2 * ((p.steps.map fun st => st.params.internal_cuts.getD 0).sum : ℚ) +
    (1 / 10) * (((p.steps.filter fun st =>
      st.action == "ligate" || st.action == "GG").map
        fun st => (st.params.scar.getD []).length).sum : ℚ) -
    (if o.prefer_typeIIS.getD false then
      (2 / 5) * ((p.steps.filter fun st => st.action == "GG").length : ℚ)
    else 0) -
    Finset.sum (digest_enzyme_list p).toFinset (fun e =>
      if 1 < (digest_enzyme_list p).count e then
        (3 / 10) * (((digest_enzyme_list p).count e : ℚ) - 1)
      else 0)

/-! ## Concrete claim inputs -/

/-- A one-step plan ligating two constructs; no enzymes are involved, so the
claimed buffer-switch term `0.3 × (distinct_enzymes − 1)` is negative while
the source clamps it at zero. -/
def c7_plan : Plan :=
  { steps := [{ name := "Ligate_A+B", action := "ligate", inputs := ["A", "B"],
                params := {}, outputs := ["A_B_ligated"], predicted_fragments := [],
                cost := 1 }],
    final := none, score := none }

/-- A search state of cost 1 and heuristic 0 over a construct named A. -/
def c5_state_a : SearchState :=
  ⟨[{ name := "A", seq := "AA".data, circular := false }], [], 1, 0⟩

/-- A search state of cost 0 and heuristic 1 over a construct named B: same
`f = g + h` as `c5_state_a` but a different construct signature. -/
def c5_state_b : SearchState :=
  ⟨[{ name := "B", seq := "CC".data, circular := false }], [], 0, 1⟩

/-- An empty model file system for the C4 specification (its sequences are
inline strings, not files). -/
def c4_fs : List (String × String) := []

/-- A cloning specification whose target (the construct name `final`) is
unreachable: with an empty enzyme database the only applicable action is the
placeholder ligation of the two linear inputs, which never produces a
construct named `final`. -/
def c4_spec : CloneSpec :=
  { vector := some { name := some "vecA", fasta := some "AAAAAAAAAA",
                     circular := some false },
    inserts := [{ name := some "insB", fasta := some "CCCCCCCCCC" }] }



/-- An end carrying the degenerate IUPAC base R as its 1-base 5-prime sticky
overhang; used to separate the source's plain reverse complement from the
IUPAC-aware one. -/
def endR : EndInfo :=
  { enzyme := "EnzR", overhang_type := fivePrimeTag, overhang_len := 1,
    sticky_seq := ['R'], polarity := "left", fragment_id := 0, position := 0 }

/-- The concrete origin-wrapping fragment of the circular digest of
`"AAAGAATTCGGG"` at cuts 3 and 9. -/
def c10_wrap_frag : Fragment :=
  ⟨9, 3, 6, "GGGAAA".data, (none, none), true⟩

/-! ## Theorems: helper lemmas -/

theorem compChar_fix (c : Char) (h1 : ¬c = 'A') (h2 : ¬c = 'C') (h3 : ¬c = 'G')
    (h4 : ¬c = 'T') (h5 : ¬c = 'a') (h6 : ¬c = 'c') (h7 : ¬c = 'g') (h8 : ¬c = 't') :
    compChar c = c := by
  unfold compChar
  rw [beq_eq_false_iff_ne.mpr h1, beq_eq_false_iff_ne.mpr h2, beq_eq_false_iff_ne.mpr h3,
    beq_eq_false_iff_ne.mpr h4, beq_eq_false_iff_ne.mpr h5, beq_eq_false_iff_ne.mpr h6,
    beq_eq_false_iff_ne.mpr h7, beq_eq_false_iff_ne.mpr h8]
  simp

theorem compChar_compChar (c : Char) : compChar (compChar c) = c := by
  by_cases h1 : c = 'A'
  · subst h1; decide
  by_cases h2 : c = 'C'
  · subst h2; decide
  by_cases h3 : c = 'G'
  · subst h3; decide
  by_cases h4 : c = 'T'
  · subst h4; decide
  by_cases h5 : c = 'a'
  · subst h5; decide
  by_cases h6 : c = 'c'
  · subst h6; decide
  by_cases h7 : c = 'g'
  · subst h7; decide
  by_cases h8 : c = 't'
  · subst h8; decide
  have e := compChar_fix c h1 h2 h3 h4 h5 h6 h7 h8
  rw [e]; exact e

theorem upChar_fix (c : Char) (h1 : ¬c = 'a') (h2 : ¬c = 'c') (h3 : ¬c = 'g')
    (h4 : ¬c = 't') (h5 : ¬c = 'r') (h6 : ¬c = 'y') (h7 : ¬c = 's') (h8 : ¬c = 'w')
    (h9 : ¬c = 'k') (h10 : ¬c = 'm') (h11 : ¬c = 'b') (h12 : ¬c = 'd')
    (h13 : ¬c = 'h') (h14 : ¬c = 'v') (h15 : ¬c = 'n') : upChar c = c := by
  unfold upChar
  rw [beq_eq_false_iff_ne.mpr h1, beq_eq_false_iff_ne.mpr h2, beq_eq_false_iff_ne.mpr h3,
    beq_eq_false_iff_ne.mpr h4, beq_eq_false_iff_ne.mpr h5, beq_eq_false_iff_ne.mpr h6,
    beq_eq_false_iff_ne.mpr h7, beq_eq_false_iff_ne.mpr h8, beq_eq_false_iff_ne.mpr h9,
    beq_eq_false_iff_ne.mpr h10, beq_eq_false_iff_ne.mpr h11, beq_eq_false_iff_ne.mpr h12,
    beq_eq_false_iff_ne.mpr h13, beq_eq_false_iff_ne.mpr h14, beq_eq_false_iff_ne.mpr h15]
  simp

theorem upChar_compChar (c : Char) : upChar (compChar c) = compChar (upChar c) := by
  by_cases e1 : c = 'A'
  · subst e1; decide
  by_cases e2 : c = 'C'
  · subst e2; decide
  by_cases e3 : c = 'G'
  · subst e3; decide
  by_cases e4 : c = 'T'
  · subst e4; decide
  by_cases h1 : c = 'a'
  · subst h1; decide
  by_cases h2 : c = 'c'
  · subst h2; decide
  by_cases h3 : c = 'g'
  · subst h3; decide
  by_cases h4 : c = 't'
  · subst h4; decide
  by_cases h5 : c = 'r'
  · subst h5; decide
  by_cases h6 : c = 'y'
  · subst h6; decide
  by_cases h7 : c = 's'
  · subst h7; decide
  by_cases h8 : c = 'w'
  · subst h8; decide
  by_cases h9 : c = 'k'
  · subst h9; decide
  by_cases h10 : c = 'm'
  · subst h10; decide
  by_cases h11 : c = 'b'
  · subst h11; decide
  by_cases h12 : c = 'd'
  · subst h12; decide
  by_cases h13 : c = 'h'
  · subst h13; decide
  by_cases h14 : c = 'v'
  · subst h14; decide
  by_cases h15 : c = 'n'
  · subst h15; decide
  have ec := compChar_fix c e1 e2 e3 e4 h1 h2 h3 h4
  have eu := upChar_fix c h1 h2 h3 h4 h5 h6 h7 h8 h9 h10 h11 h12 h13 h14 h15
  rw [ec, eu, ec]

theorem revcomp_revcomp (s : List Char) : revcomp (revcomp s) = s := by
  simp [revcomp, List.map_reverse, List.map_map, List.reverse_reverse,
    Function.comp_def, compChar_compChar]

theorem pyUpper_revcomp (s : List Char) : pyUpper (revcomp s) = revcomp (pyUpper s) := by
  simp only [pyUpper, revcomp, List.map_reverse, List.map_map]
  congr 1
  exact List.map_congr_left fun c _ => upChar_compChar c

theorem revcomp_eq_comm (A B : List Char) : A = revcomp B ↔ B = revcomp A := by
  constructor
  · intro h; rw [h, revcomp_revcomp]
  · intro h; rw [h, revcomp_revcomp]

theorem are_compatible_eq_amended (a b : EndInfo) (ib : Bool) (mo : Int) :
    are_compatible a b ib mo = are_compatible_amended a b ib mo := by
  by_cases h1 : a.overhang_len = 0 <;> by_cases h2 : b.overhang_len = 0 <;>
    by_cases h3 : (a.overhang_len : Int) < mo <;>
    by_cases h4 : (b.overhang_len : Int) < mo <;>
    by_cases h5 : a.overhang_len = b.overhang_len <;>
    by_cases h6 : a.overhang_type = b.overhang_type <;>
    by_cases h7 : pyUpper a.sticky_seq = pyUpper (revcomp b.sticky_seq) <;>
    simp [are_compatible, are_compatible_amended, h1, h2, h3, h4, h5, h6, h7, Xor']

theorem are_compatible_amended_comm (a b : EndInfo) (ib : Bool) (mo : Int) :
    are_compatible_amended a b ib mo = are_compatible_amended b a ib mo := by
  have hfinal : (pyUpper a.sticky_seq = pyUpper (revcomp b.sticky_seq)) ↔
      (pyUpper b.sticky_seq = pyUpper (revcomp a.sticky_seq)) := by
    rw [pyUpper_revcomp, pyUpper_revcomp]
    exact revcomp_eq_comm _ _
  by_cases h1 : a.overhang_len = 0 <;> by_cases h2 : b.overhang_len = 0 <;>
    by_cases h3 : (a.overhang_len : Int) < mo <;>
    by_cases h4 : (b.overhang_len : Int) < mo <;>
    by_cases h5 : a.overhang_len = b.overhang_len <;>
    by_cases h6 : a.overhang_type = b.overhang_type <;>
    simp [are_compatible_amended, h1, h2, h3, h4, h5, h6, Xor', hfinal, eq_comm,
      Ne, not_false_eq_true]

theorem getLastD_default_irrel (l : List Nat) (h : l ≠ []) (d1 d2 : Nat) :
    l.getLastD d1 = l.getLastD d2 := by
  cases l with
  | nil => exact absurd rfl h
  | cons a t => rfl

theorem getLastD_mem (l : List Nat) (d : Nat) (h : l ≠ []) : l.getLastD d ∈ l := by
  induction l generalizing d with
  | nil => exact absurd rfl h
  | cons a t ih =>
    cases t with
    | nil => simp
    | cons b t2 =>
      have h2 := ih (d := a) (by simp)
      have e : (a :: b :: t2).getLastD d = (b :: t2).getLastD a := rfl
      rw [e]
      exact List.mem_cons_of_mem a h2

theorem norm_cuts_sorted (cuts : List Int) (L : Nat) :
    (norm_cuts cuts L).Sorted (· ≤ ·) :=
  List.sorted_insertionSort _ _

theorem norm_cuts_nodup (cuts : List Int) (L : Nat) : (norm_cuts cuts L).Nodup :=
  (List.perm_insertionSort _ _).nodup_iff.mpr (List.nodup_dedup _)

theorem norm_cuts_lt (cuts : List Int) (L : Nat) (hL : 0 < L) :
    ∀ x ∈ norm_cuts cuts L, x < L := by
  intro x hx
  have hx2 : x ∈ (cuts.map fun p => (p % (L : Int)).toNat).dedup :=
    ((List.perm_insertionSort _ _).mem_iff).mp hx
  have hx3 := List.mem_dedup.mp hx2
  obtain ⟨p, _, rfl⟩ := List.mem_map.mp hx3
  have h1 : (0 : Int) < (L : Int) := by exact_mod_cast hL
  have h2 : p % (L : Int) < (L : Int) := Int.emod_lt_of_pos p h1
  have h3 : 0 ≤ p % (L : Int) := Int.emod_nonneg p (by omega)
  omega

/-- Telescoping sum of consecutive differences along a `≤`-chain. -/
theorem zip_tail_sum (a : Nat) (l : List Nat) (h : List.Chain (· ≤ ·) a l) :
    a + (((a :: l).zip l).map fun q => q.2 - q.1).sum = (a :: l).getLastD 0 := by
  induction l generalizing a with
  | nil => simp
  | cons b t ih =>
    rcases h with _ | ⟨hab, hbt⟩
    have e1 : (a :: b :: t).getLastD 0 = (b :: t).getLastD 0 :=
      (getLastD_default_irrel (b :: t) (by simp) a 0 : (b :: t).getLastD a = _)
    rw [e1, ← ih b hbt]
    simp only [List.zip_cons_cons, List.map_cons, List.sum_cons]
    omega

theorem zip_tail_le (l : List Nat) (hs : l.Sorted (· ≤ ·)) :
    ∀ q ∈ l.zip l.tail, q.1 ≤ q.2 := by
  induction l with
  | nil => intro q hq; simp at hq
  | cons a t ih =>
    cases t with
    | nil => intro q hq; simp at hq
    | cons b t2 =>
      intro q hq
      simp only [List.tail_cons, List.zip_cons_cons, List.mem_cons] at hq
      rcases hq with rfl | hq
      · exact (List.pairwise_cons.mp hs).1 b (by simp)
      · exact ih hs.of_cons q (by simpa using hq)

theorem zip_tail_mem (l : List Nat) (q : Nat × Nat) (hq : q ∈ l.zip l.tail) :
    q.1 ∈ l ∧ q.2 ∈ l := by
  obtain ⟨q1, q2⟩ := q
  have h := List.of_mem_zip hq
  exact ⟨h.1, l.tail_subset h.2⟩

theorem sorted_nodup_head_lt_last (a b : Nat) (t : List Nat)
    (hs : (a :: b :: t).Sorted (· ≤ ·)) (hn : (a :: b :: t).Nodup) :
    a < (a :: b :: t).getLastD 0 := by
  have e : (a :: b :: t).getLastD 0 = (b :: t).getLastD 0 :=
    (getLastD_default_irrel (b :: t) (by simp) a 0 : (b :: t).getLastD a = _)
  rw [e]
  have hmem : (b :: t).getLastD 0 ∈ b :: t := getLastD_mem _ 0 (by simp)
  have hle : a ≤ (b :: t).getLastD 0 := (List.pairwise_cons.mp hs).1 _ hmem
  have hne : a ≠ (b :: t).getLastD 0 := by
    intro hcontra
    exact (List.nodup_cons.mp hn).1 (hcontra ▸ hmem)
  omega

/-- Mapping `Frag.length` over the enumerated middle-fragment builder gives
the consecutive differences. -/
theorem map_length_enumFrom_mid_frag (p2e : Nat → List EnzMeta) (idx0 : Nat)
    (l : List (Nat × Nat)) (k : Nat) :
    ((l.enumFrom k).map (mid_frag p2e idx0)).map Frag.length = l.map fun q => q.2 - q.1 := by
  induction l generalizing k with
  | nil => rfl
  | cons q t ih => simp [List.enumFrom, mid_frag, ih]

theorem map_length_enum_mid_frag (p2e : Nat → List EnzMeta) (idx0 : Nat)
    (l : List (Nat × Nat)) :
    (l.enum.map (mid_frag p2e idx0)).map Frag.length = l.map fun q => q.2 - q.1 :=
  map_length_enumFrom_mid_frag p2e idx0 l 0

theorem pySlice_length (s : List Char) (a b : Nat) (h2 : b ≤ s.length) :
    (pySlice s a b).length = b - a := by
  simp only [pySlice, List.length_take, List.length_drop]
  omega

theorem slice_circular_wrap_length (s : List Char) (a b : Nat) (ha : a < s.length)
    (hb : b < s.length) (hba : b < a) :
    (slice_circular s a b).length = (s.length - a) + b := by
  unfold slice_circular
  have hn : ¬s.length = 0 := by omega
  have e1 : (((a : Int) % (s.length : Int))).toNat = a := by
    rw [Int.emod_eq_of_lt (by omega) (by exact_mod_cast ha)]
    simp
  have e2 : (((b : Int) % (s.length : Int))).toNat = b := by
    rw [Int.emod_eq_of_lt (by omega) (by exact_mod_cast hb)]
    simp
  simp only [hn, if_false, e1, e2]
  have h3 : ¬a < b := by omega
  have h4 : a > b := hba
  simp only [h3, if_false, h4, if_true, List.length_append, List.length_drop,
    List.length_take]
  omega

/-- Shared core of C1 and C8: for every positive sequence length the fragment
lengths produced by the state machine sum to the sequence length. -/
theorem compute_fragments_pos_sum (cuts : List Int) (L : Nat) (circ lin : Bool)
    (md : List (Int × List EnzMeta)) (hL : 0 < L) :
    ((compute_fragments_pos cuts L circ lin md).map Frag.length).sum = L := by
  unfold compute_fragments_pos
  split
  · -- linear
    split
    · simp
    · rename_i p0 rest hps
      have hsorted := norm_cuts_sorted cuts L
      rw [hps] at hsorted
      have hchain : List.Chain (· ≤ ·) p0 rest := List.chain'_iff_pairwise.mpr hsorted
      have htele := zip_tail_sum p0 rest hchain
      have hlast : (p0 :: rest).getLastD 0 ∈ p0 :: rest := getLastD_mem _ 0 (by simp)
      have hlt : (p0 :: rest).getLastD 0 < L := by
        have hb := norm_cuts_lt cuts L hL
        rw [hps] at hb
        exact hb _ hlast
      simp only [List.map_cons, List.map_append, List.sum_cons, List.sum_append,
        List.map_nil, List.sum_nil, map_length_enum_mid_frag]
      omega
  · -- circular
    split
    · simp
    · rename_i p0 hps
      have hlt : p0 < L := by
        have hb := norm_cuts_lt cuts L hL
        rw [hps] at hb
        exact hb p0 (by simp)
      split
      · simp
        omega
      · simp
    · rename_i p0 p1 rest2 hps
      have hsorted := norm_cuts_sorted cuts L
      rw [hps] at hsorted
      have hchain : List.Chain (· ≤ ·) p0 (p1 :: rest2) :=
        List.chain'_iff_pairwise.mpr hsorted
      have htele := zip_tail_sum p0 (p1 :: rest2) hchain
      have hlast : (p0 :: p1 :: rest2).getLastD 0 ∈ p0 :: p1 :: rest2 :=
        getLastD_mem _ 0 (by simp)
      have hlt : (p0 :: p1 :: rest2).getLastD 0 < L := by
        have hb := norm_cuts_lt cuts L hL
        rw [hps] at hb
        exact hb _ hlast
      simp only [List.map_append, List.sum_append, List.map_cons, List.sum_cons,
        List.map_nil, List.sum_nil, map_length_enum_mid_frag]
      omega

/-- Mapping the boundary projection over the enumerated middle-fragment
builder gives the consecutive interval descriptions. -/
theorem map_proj_enumFrom_mid_frag (p2e : Nat → List EnzMeta) (idx0 : Nat)
    (l : List (Nat × Nat)) (k : Nat) :
    ((l.enumFrom k).map (mid_frag p2e idx0)).map
        (fun fr => (fr.start, fr.stop, fr.length, fr.wraps)) =
      l.map fun q => (q.1, q.2, q.2 - q.1, false) := by
  induction l generalizing k with
  | nil => rfl
  | cons q t ih => simp [List.enumFrom, mid_frag, ih]

theorem countP_wraps_enumFrom_mid_frag (p2e : Nat → List EnzMeta) (idx0 : Nat)
    (l : List (Nat × Nat)) (k : Nat) :
    ((l.enumFrom k).map (mid_frag p2e idx0)).countP (fun fr => fr.wraps) = 0 := by
  induction l generalizing k with
  | nil => rfl
  | cons q t ih => simp [List.enumFrom, mid_frag, List.countP_cons, ih]

/-- The enzyme-set accumulation loop of `score_plan`, closed-form. -/
theorem enzymes_used_foldl (steps : List Step) (acc : Finset String) :
    steps.foldl
      (fun a step =>
        if step.action == "digest" then a ∪ (step.params.enzymes.getD []).toFinset
        else if step.action == "GG" then insert (step.params.enzyme.getD "") a
        else a) acc =
    acc ∪ ((steps.filter fun st => st.action == "digest").map
        (fun st => st.params.enzymes.getD [])).flatten.toFinset ∪
      ((steps.filter fun st => st.action == "GG").map
        (fun st => st.params.enzyme.getD "")).toFinset := by
  induction steps generalizing acc with
  | nil => simp
  | cons st t ih =>
    simp only [List.foldl_cons, List.filter_cons]
    by_cases h1 : st.action = "digest"
    · have hb1 : (st.action == "digest") = true := by simp [h1]
      have hb2 : (st.action == "GG") = false := by simp [h1]
      rw [hb1, hb2]
      simp only [eq_self_iff_true, if_true, Bool.false_eq_true, if_false,
        List.map_cons, List.flatten_cons, List.toFinset_append]
      rw [ih]
      ext x
      simp
    · by_cases h2 : st.action = "GG"
      · have hb1 : (st.action == "digest") = false := by simp [h1]
        have hb2 : (st.action == "GG") = true := by simp [h2]
        rw [hb1, hb2]
        simp only [eq_self_iff_true, if_true, Bool.false_eq_true, if_false,
          List.map_cons, List.toFinset_cons]
        rw [ih]
        ext x
        simp
      · have hb1 : (st.action == "digest") = false := by simp [h1]
        have hb2 : (st.action == "GG") = false := by simp [h2]
        rw [hb1, hb2]
        simp only [Bool.false_eq_true, if_false]
        exact ih acc

/-- The digest-enzyme count accumulation loop of `score_plan`, closed-form. -/
theorem digest_enzymes_foldl (steps : List Step) (acc : List String) :
    steps.foldl
      (fun a step =>
        if step.action == "digest" then a ++ step.params.enzymes.getD [] else a) acc =
    acc ++ ((steps.filter fun st => st.action == "digest").map
      (fun st => st.params.enzymes.getD [])).flatten := by
  induction steps generalizing acc with
  | nil => simp
  | cons st t ih =>
    simp only [List.foldl_cons, List.filter_cons]
    by_cases h1 : st.action = "digest"
    · have hb1 : (st.action == "digest") = true := by simp [h1]
      rw [hb1]
      simp only [eq_self_iff_true, if_true, List.map_cons, List.flatten_cons]
      rw [ih, List.append_assoc]
    · have hb1 : (st.action == "digest") = false := by simp [h1]
      rw [hb1]
      simp only [Bool.false_eq_true, if_false]
      exact ih acc

/-! ## Claim theorems -/

/-- C3 counterexample: with two copies of an end whose sticky overhang is the
degenerate base R, the source's `are_compatible` answers `true` (its plain
`revcomp` leaves R unchanged), while the claim's rule cascade — whose final
test uses the IUPAC-aware reverse complement, under which the complement of R
is Y — answers `false`.  So the claim's description of the final rule is false
on the code at this input. -/
theorem c3_counterexample :
    are_compatible endR endR false 1 = true ∧
      are_compatible_claim_iupac endR endR false 1 = false := by
  constructor <;> rfl

/-- C3 (amended): `are_compatible` applies exactly the claimed rules in order
— both blunt gives `include_blunt`; exactly one blunt gives false; an
overhang below `min_overhang` gives false; different lengths give false;
different overhang kinds give false; otherwise the ends are compatible iff
a's sticky bases equal the reverse complement of b's sticky bases under the
**plain DNA complement, which leaves degenerate IUPAC letters unchanged**
(not the IUPAC-aware complement). -/
theorem c3_are_compatible_rules (a b : EndInfo) (ib : Bool) (mo : Int) :
    are_compatible a b ib mo = are_compatible_amended a b ib mo :=
  are_compatible_eq_amended a b ib mo

/-- C9: `are_compatible` is commutative — every rule in the cascade is
symmetric in the two ends, and the final sticky-sequence test is symmetric
because the plain reverse complement is an involution. -/
theorem c9_are_compatible_comm (a b : EndInfo) (ib : Bool) (mo : Int) :
    are_compatible a b ib mo = are_compatible b a ib mo := by
  rw [are_compatible_eq_amended, are_compatible_eq_amended,
    are_compatible_amended_comm]

/-- C2: `compute_end_metadata` depends on `is_left_end` only through the
`polarity` field: for every DNA string, cut position, recognition site, cut
index, overhang kind and circular flag the left and right results agree on
`overhang_len`, `sticky_seq`, `end_bases` and `overhang_type`, with polarity
`left` and `right` respectively; and on `"AAAGAATTCGGG"` with cut position 4,
site `"GAATTC"`, cut index 1 and a 5-prime overhang, both calls report the
sticky sequence `"AATT"`. -/
theorem c2_end_metadata_left_right :
    (∀ (dna : List Char) (cut_pos : Int) (site : List Char) (ci : Int)
        (kind : String) (circ : Bool),
      (compute_end_metadata dna cut_pos site ci kind true circ).overhang_len =
        (compute_end_metadata dna cut_pos site ci kind false circ).overhang_len ∧
      (compute_end_metadata dna cut_pos site ci kind true circ).sticky_seq =
        (compute_end_metadata dna cut_pos site ci kind false circ).sticky_seq ∧
      (compute_end_metadata dna cut_pos site ci kind true circ).end_bases =
        (compute_end_metadata dna cut_pos site ci kind false circ).end_bases ∧
      (compute_end_metadata dna cut_pos site ci kind true circ).overhang_type =
        (compute_end_metadata dna cut_pos site ci kind false circ).overhang_type ∧
      (compute_end_metadata dna cut_pos site ci kind true circ).polarity = "left" ∧
      (compute_end_metadata dna cut_pos site ci kind false circ).polarity = "right") ∧
    (compute_end_metadata "AAAGAATTCGGG".data 4 "GAATTC".data 1 fivePrimeTag
        true false).sticky_seq = "AATT".data ∧
    (compute_end_metadata "AAAGAATTCGGG".data 4 "GAATTC".data 1 fivePrimeTag
        false false).sticky_seq = "AATT".data := by
  refine ⟨fun dna cut_pos site ci kind circ => ?_, by decide, by decide⟩
  unfold compute_end_metadata
  by_cases hb : kind = bluntTag ∨ calculate_overhang_length site ci = 0 <;>
    simp [hb]

/-- C1: for every positive sequence length, every raw cut-position list, every
topology flag, every single-cut-linearizes flag and every cut-metadata map,
the lengths of the fragments returned by `compute_fragments` sum exactly to
the sequence length. -/
theorem c1_fragment_length_sum (cuts : List Int) (L : Int) (circ lin : Bool)
    (md : List (Int × List EnzMeta)) (frs : List Frag) (hL : 0 < L)
    (h : compute_fragments cuts L circ lin md = .ok frs) :
    ((frs.map Frag.length).sum : Int) = L := by
  unfold compute_fragments at h
  rw [if_neg (by omega)] at h
  have hfrs : frs = compute_fragments_pos cuts L.toNat circ lin md := by
    cases h
    rfl
  subst hfrs
  have hs := compute_fragments_pos_sum cuts L.toNat circ lin md (by omega)
  rw [hs]
  omega

theorem c1_fragment_length_sum_witness :
    (0 : Int) < 12 ∧
      compute_fragments [3, 9] 12 true false [] =
        .ok (compute_fragments_pos [3, 9] 12 true false []) ∧
      (((compute_fragments_pos [3, 9] 12 true false []).map Frag.length).sum : Int) = 12 :=
  ⟨by decide, rfl,
    c1_fragment_length_sum [3, 9] 12 true false [] _ (by decide) rfl⟩

/-- C8: `compute_fragments` reports an invalid-input error exactly when the
sequence length is nonpositive, and for every positive sequence length it
returns a fragment list whose lengths sum to the full sequence length (no
silent clamping). -/
theorem c8_error_iff_nonpositive (cuts : List Int) (L : Int) (circ lin : Bool)
    (md : List (Int × List EnzMeta)) :
    ((∃ msg, compute_fragments cuts L circ lin md = .error msg) ↔ L ≤ 0) ∧
    (0 < L → ∃ frs, compute_fragments cuts L circ lin md = .ok frs ∧
      ((frs.map Frag.length).sum : Int) = L) := by
  constructor
  · constructor
    · rintro ⟨msg, hmsg⟩
      by_contra hpos
      unfold compute_fragments at hmsg
      rw [if_neg hpos] at hmsg
      cases hmsg
    · intro hle
      refine ⟨"Sequence length must be positive, got " ++ toString L, ?_⟩
      unfold compute_fragments
      rw [if_pos hle]
  · intro hpos
    refine ⟨compute_fragments_pos cuts L.toNat circ lin md, ?_, ?_⟩
    · unfold compute_fragments
      rw [if_neg (by omega)]
    · have hs := compute_fragments_pos_sum cuts L.toNat circ lin md (by omega)
      rw [hs]
      omega

theorem c8_error_iff_nonpositive_witness :
    (∃ msg, compute_fragments [] (-2) false false [] = .error msg) ∧
      (∃ frs, compute_fragments [2] 5 false false [] = .ok frs ∧
        ((frs.map Frag.length).sum : Int) = 5) :=
  ⟨(c8_error_iff_nonpositive [] (-2) false false []).1.mpr (by decide),
    (c8_error_iff_nonpositive [2] 5 false false []).2 (by decide)⟩

/-- C6: in a circular digest with at least two distinct normalized cut
positions, `compute_fragments` returns exactly one fragment per cut: all but
the last are the non-wrapping intervals between consecutive sorted cuts in
ascending order, and the last is the single wrap fragment, with
`wraps = true`, running from the last cut to the first cut with length
`(seq_len - last) + first`. -/
theorem c6_circular_wrap_structure (cuts : List Int) (L : Nat) (lin : Bool)
    (md : List (Int × List EnzMeta)) (frs : List Frag) (hL : 0 < L)
    (hok : compute_fragments cuts (L : Int) true lin md = .ok frs)
    (h2 : 2 ≤ (norm_cuts cuts L).length) :
    frs.length = (norm_cuts cuts L).length ∧
    frs.dropLast.map (fun fr => (fr.start, fr.stop, fr.length, fr.wraps)) =
      ((norm_cuts cuts L).zip (norm_cuts cuts L).tail).map
        (fun q => (q.1, q.2, q.2 - q.1, false)) ∧
    frs.getLast?.map (fun fr => (fr.start, fr.stop, fr.length, fr.wraps)) =
      some ((norm_cuts cuts L).getLastD 0, (norm_cuts cuts L).headD 0,
        (L - (norm_cuts cuts L).getLastD 0) + (norm_cuts cuts L).headD 0, true) ∧
    frs.countP (fun fr => fr.wraps) = 1 := by
  have hfrs : frs = compute_fragments_pos cuts L true lin md := by
    unfold compute_fragments at hok
    rw [if_neg (by omega)] at hok
    cases hok
    rw [Int.toNat_natCast]
  subst hfrs
  rcases hps : norm_cuts cuts L with - | ⟨p0, t⟩
  · rw [hps] at h2; simp at h2
  rcases t with - | ⟨p1, rest⟩
  · rw [hps] at h2; simp at h2
  have e : compute_fragments_pos cuts L true lin md =
      (((p0 :: p1 :: rest).zip (p1 :: rest)).enum).map
          (mid_frag (pos_to_enzymes cuts md L) 0) ++
        [⟨(p0 :: p1 :: rest).length - 1,
          (L - (p0 :: p1 :: rest).getLastD 0) + p0, (p0 :: p1 :: rest).getLastD 0, p0, true,
          ⟨some ⟨(p0 :: p1 :: rest).getLastD 0,
              pos_to_enzymes cuts md L ((p0 :: p1 :: rest).getLastD 0)⟩,
            some ⟨p0, pos_to_enzymes cuts md L p0⟩⟩⟩] := by
    unfold compute_fragments_pos
    rw [if_neg (by simp), hps]
  rw [e]
  refine ⟨?_, ?_, ?_, ?_⟩
  · simp [List.length_zip]
  · rw [List.dropLast_concat, List.enum, map_proj_enumFrom_mid_frag]
    rfl
  · rw [List.getLast?_concat]
    rfl
  · rw [List.countP_append, List.enum, countP_wraps_enumFrom_mid_frag]
    rfl

theorem c6_circular_wrap_structure_witness :
    0 < 12 ∧ 2 ≤ (norm_cuts [3, 9] 12).length ∧
      compute_fragments [3, 9] (12 : Int) true false [] =
        .ok (compute_fragments_pos [3, 9] 12 true false []) ∧
      ((compute_fragments_pos [3, 9] 12 true false []).length =
          (norm_cuts [3, 9] 12).length ∧
        (compute_fragments_pos [3, 9] 12 true false []).dropLast.map
            (fun fr => (fr.start, fr.stop, fr.length, fr.wraps)) =
          ((norm_cuts [3, 9] 12).zip (norm_cuts [3, 9] 12).tail).map
            (fun q => (q.1, q.2, q.2 - q.1, false)) ∧
        (compute_fragments_pos [3, 9] 12 true false []).getLast?.map
            (fun fr => (fr.start, fr.stop, fr.length, fr.wraps)) =
          some ((norm_cuts [3, 9] 12).getLastD 0, (norm_cuts [3, 9] 12).headD 0,
            (12 - (norm_cuts [3, 9] 12).getLastD 0) + (norm_cuts [3, 9] 12).headD 0,
            true) ∧
        (compute_fragments_pos [3, 9] 12 true false []).countP
            (fun fr => fr.wraps) = 1) ∧
      (compute_fragments_pos [3, 9] 12 true false []).map Frag.length = [6, 6] :=
  ⟨by decide, by decide, rfl,
    c6_circular_wrap_structure [3, 9] 12 false [] _ (by decide) rfl (by decide),
    by decide⟩

/-- C10: every fragment returned by `compute_fragments_with_sequences`
carries a sequence whose length equals its `length` field, for every DNA
string, cut-position list, topology and metadata — including the
origin-wrapping fragment assembled by wrap-aware slicing. -/
theorem c10_sequence_length (dna : List Char) (cuts : List Int) (circ lin : Bool)
    (md : List (Int × List EnzMeta)) (fr : Fragment)
    (hfr : fr ∈ compute_fragments_with_sequences dna cuts circ lin md) :
    fr.sequence.length = fr.length := by
  unfold compute_fragments_with_sequences at hfr
  dsimp only at hfr
  split at hfr
  · exact absurd hfr (List.not_mem_nil fr)
  rename_i hz
  have hLpos : 0 < dna.length := Nat.pos_of_ne_zero hz
  have hbound := norm_cuts_lt cuts dna.length hLpos
  split at hfr
  · -- linear
    split at hfr
    · -- no cuts
      simp only [List.mem_singleton] at hfr
      subst hfr
      rfl
    · rename_i p0 rest hps
      rw [hps] at hbound
      simp only [List.cons_append, List.mem_cons, List.mem_append,
        List.mem_singleton, List.mem_map, List.not_mem_nil, or_false] at hfr
      rcases hfr with rfl | ⟨q, hq, rfl⟩ | rfl
      · show (pySlice dna 0 p0).length = p0
        rw [pySlice_length dna 0 p0 (le_of_lt (hbound p0 (by simp)))]
        omega
      · show (pySlice dna q.1 q.2).length = q.2 - q.1
        have hm := zip_tail_mem (p0 :: rest) q hq
        exact pySlice_length dna q.1 q.2 (le_of_lt (hbound q.2 hm.2))
      · show (pySlice dna ((p0 :: rest).getLastD 0) dna.length).length =
          dna.length - (p0 :: rest).getLastD 0
        rw [pySlice_length dna _ dna.length le_rfl]
  · -- circular
    split at hfr
    · -- no cuts
      simp only [List.mem_singleton] at hfr
      subst hfr
      rfl
    · -- one cut
      rename_i p0 hps
      rw [hps] at hbound
      have hp0 : p0 < dna.length := hbound p0 (by simp)
      split at hfr
      · simp only [List.mem_cons, List.mem_singleton, List.not_mem_nil,
          or_false] at hfr
        rcases hfr with rfl | rfl
        · show (pySlice dna p0 dna.length).length = dna.length - p0
          rw [pySlice_length dna p0 dna.length le_rfl]
        · show (pySlice dna 0 p0).length = p0
          rw [pySlice_length dna 0 p0 (le_of_lt hp0)]
          omega
      · simp only [List.mem_singleton] at hfr
        subst hfr
        rfl
    · -- at least two cuts
      rename_i p0 p1 rest hps
      have hsorted := norm_cuts_sorted cuts dna.length
      have hnodup := norm_cuts_nodup cuts dna.length
      rw [hps] at hbound hsorted hnodup
      have hlastmem : (p0 :: p1 :: rest).getLastD 0 ∈ p0 :: p1 :: rest :=
        getLastD_mem _ 0 (by simp)
      have hlast_lt : (p0 :: p1 :: rest).getLastD 0 < dna.length := hbound _ hlastmem
      have hhead_lt_last : p0 < (p0 :: p1 :: rest).getLastD 0 :=
        sorted_nodup_head_lt_last p0 p1 rest hsorted hnodup
      simp only [List.mem_append, List.mem_singleton, List.mem_map] at hfr
      rcases hfr with ⟨q, hq, rfl⟩ | rfl
      · show (pySlice dna q.1 q.2).length = q.2 - q.1
        have hm := zip_tail_mem (p0 :: p1 :: rest) q hq
        exact pySlice_length dna q.1 q.2 (le_of_lt (hbound q.2 hm.2))
      · show (slice_circular dna ((p0 :: p1 :: rest).getLastD 0) p0).length =
          (dna.length - (p0 :: p1 :: rest).getLastD 0) + p0
        exact slice_circular_wrap_length dna _ p0 hlast_lt
          (hbound p0 (by simp)) hhead_lt_last

theorem c10_sequence_length_witness :
    c10_wrap_frag ∈
        compute_fragments_with_sequences "AAAGAATTCGGG".data [3, 9] true false [] ∧
      c10_wrap_frag.sequence.length = c10_wrap_frag.length :=
  ⟨by decide,
    c10_sequence_length "AAAGAATTCGGG".data [3, 9] true false [] c10_wrap_frag
      (by decide)⟩

/-- C5 counterexample: two states with the same `f = g + h` but different
construct signatures are mutually not-less-than — `SearchState.__lt__`
applies **no** signature tie-break, so the comparator claimed by the
specification (total on states with distinct signatures) is not the one in
the code. -/
theorem c5_counterexample :
    SearchState.lt c5_state_a c5_state_b = false ∧
      SearchState.lt c5_state_b c5_state_a = false ∧
      c5_state_a.signature ≠ c5_state_b.signature := by
  refine ⟨by norm_num [SearchState.lt, c5_state_a, c5_state_b],
    by norm_num [SearchState.lt, c5_state_a, c5_state_b], ?_⟩
  intro h
  have hmem : ("A", 2, false, (0 : Int), "AA".data) ∈ c5_state_b.signature := by
    rw [← h]; decide
  revert hmem
  decide

/-- C5 (amended): the planner's priority-queue comparator orders states by
`f = g + h` alone; it is strict (`lt a b` exactly when `f a < f b`), and two
states are mutually not-less-than exactly when their `f` values are equal —
regardless of their construct signatures, which the comparator never
consults. -/
theorem c5_lt_is_f_order_only (a b : SearchState) :
    (SearchState.lt a b = true ↔ a.cost + a.heuristic < b.cost + b.heuristic) ∧
    ((SearchState.lt a b = false ∧ SearchState.lt b a = false) ↔
      a.cost + a.heuristic = b.cost + b.heuristic) := by
  constructor
  · simp [SearchState.lt]
  · simp only [SearchState.lt, decide_eq_false_iff_not]
    constructor
    · rintro ⟨h1, h2⟩
      exact le_antisymm (not_lt.mp h2) (not_lt.mp h1)
    · intro h
      constructor <;> simp [h]

/-- C7 counterexample: on a one-step ligation plan using no enzymes, the
source's score is 1.0 (the buffer-switch count is clamped at zero by
`max(0, len(enzymes_used) - 1)`) while the claimed formula
`... + 0.3 × (distinct_enzymes − 1) ...` evaluates to 0.7. -/
theorem c7_counterexample :
    score_plan c7_plan {} = 1 ∧ claim_score_formula c7_plan {} = 7 / 10 ∧
      score_plan c7_plan {} ≠ claim_score_formula c7_plan {} := by
  have h1 : ¬("ligate" = "digest") := by decide
  have h2 : ¬("ligate" = "GG") := by decide
  refine ⟨?_, ?_, ?_⟩ <;>
    norm_num [score_plan, c7_plan, claim_score_formula, spec_enzymes_used,
      digest_enzyme_list, gg_enzyme_list, h1, h2]

/-- C7 (amended): for every plan and options, `score_plan` equals
1.0×steps + 0.5×distinct_enzymes + 0.3×max(0, distinct_enzymes−1)
+ 1.0×non-directional ligations (when directionality is required)
+ 2.0×internal-cut violations + 0.1×total scar length
− 0.4×Golden-Gate steps (when Type IIS is preferred)
− 0.3×(reuse_count−1) for each enzyme used by more than one digest step;
the accumulation loops of the source equal these closed-form terms. -/
theorem c7_score_plan_formula (p : Plan) (o : Options) :
    score_plan p o = amended_score_formula p o := by
  unfold score_plan amended_score_formula spec_enzymes_used digest_enzyme_list
    gg_enzyme_list
  rw [enzymes_used_foldl, digest_enzymes_foldl]
  simp only [Finset.empty_union, List.nil_append, one_mul]

/-- C4: evaluation of the planner at a specification whose target construct
(`final`) is unreachable, with `max_steps = 1`: the code returns a plan with
`feasible = true`, `final = none` and an empty `reason` — contradicting the
claimed failure mode (`feasible = false` with a non-empty reason).  The
depth-limit branch of `beam_search` records dead-end states as feasible
plans.  (Fuel 5 bounds the source's unbounded `while` loop; the result being
`some _` shows the loop in fact terminated within it.) -/
theorem c4_unreachable_target_feasible_bug :
    (plan_from_spec 5 c4_fs c4_spec [] 1 {}).map
        (fun p => (p.feasible, p.final, p.reason, p.steps.length)) =
      some (true, none, "", 1) := by
  decide

end Genomancer
